import Mathlib

/-!
Shallow embedding of the repository's two modules,
`src/text_analyzer.py` (class `TextAnalyzer`) and
`src/web_scraper.py` (class `WebScraper`), together with proofs of the
frozen claims about them.

Modelling conventions:
* Python strings are `List Char`; `"…".data` injects literals.
* Python ints are `Nat`; Python floats are modelled as exact rationals `ℚ`
  (the arithmetic in the source is a single division, exact in `ℚ`).
* Fallible collaborator calls (NLTK tokenisation, network fetch/extract,
  HTML parsing, filesystem mkdir/write) are passed in as `Except` values:
  `.error` models a raised Python exception, `.ok` a returned value.
  A Python `try`/`except` is the explicit `match` that converts `.error`
  into the returned error payload.  A public operation whose Lean result
  is `Except.error …` models an exception propagating to the caller.
* Character classes (`str.isalnum`, `\w`, `\s`, `str.lower`) are modelled
  on their ASCII behaviour via `Char.isAlphanum`, `Char.toLower`, etc.
-/

namespace VibeCrawler

/-- Python `str.lower()` applied characterwise. -/
def pyLower (s : List Char) : List Char := s.map Char.toLower

/-- Python `\s` (ASCII): space, tab, newline, carriage return, form feed, vertical tab. -/
def pySpace (c : Char) : Bool :=
  c = ' ' || c = '\t' || c = '\n' || c = '\r' || c = Char.ofNat 12 || c = Char.ofNat 11

/-- Helper for the Python substring test: does `need` start the list `hay`? -/
def leadsWith : List Char → List Char → Bool
  | [], _ => true
  | _ :: _, [] => false
  | c :: cs, d :: ds => c = d && leadsWith cs ds

/-- Python `need in hay` for strings: `need` occurs contiguously in `hay`. -/
def occursIn (need : List Char) : List Char → Bool
  | [] => leadsWith need []
  | d :: t => leadsWith need (d :: t) || occursIn need t

/-- Python `str.isalnum()`: non-empty and every character alphanumeric. -/
def pyIsAlnum (w : List Char) : Bool := !w.isEmpty && w.all Char.isAlphanum

/-- The fixed theme keyword table from `TextAnalyzer.__init__` (src/text_analyzer.py lines 28-35). -/
def themeTable : List (List Char × List (List Char)) :=
  [ ("community".data,
      ["community".data, "social".data, "shared".data, "together".data,
       "connect".data, "interact".data, "neighbors".data]),
    ("convenience".data,
      ["convenient".data, "easy".data, "simple".data, "quick".data,
       "fast".data, "efficient".data, "hassle-free".data]),
    ("location".data,
      ["location".data, "area".data, "neighborhood".data, "district".data,
       "zone".data, "region".data, "place".data]),
    ("amenities".data,
      ["amenities".data, "features".data, "facilities".data, "services".data,
       "utilities".data, "included".data]),
    ("lifestyle".data,
      ["lifestyle".data, "living".data, "experience".data, "quality".data,
       "comfort".data, "enjoy".data, "relax".data]),
    ("sustainability".data,
      ["sustainable".data, "eco-friendly".data, "green".data,
       "environmental".data, "energy".data, "recycle".data]) ]

/-- Raw per-theme match counts of `TextAnalyzer._analyze_themes`:
for each theme, `sum(1 for keyword in keywords if keyword in text)`. -/
def themeRaw (table : List (List Char × List (List Char))) (text : List Char) :
    List (List Char × Nat) :=
  table.map (fun p => (p.1, (p.2.filter (fun k => occursIn k text)).length))

/-- Embedding of `TextAnalyzer._analyze_themes` (src/text_analyzer.py lines 75-91):
count keyword substring hits per theme, then normalise by the grand total
when that total is positive, else leave the raw (all-zero) counts. -/
def analyzeThemes (table : List (List Char × List (List Char))) (text : List Char) :
    List (List Char × ℚ) :=
  let raw := themeRaw table text
  let total : Nat := (raw.map (fun p => p.2)).sum
  if 0 < total then raw.map (fun p => (p.1, (p.2 : ℚ) / (total : ℚ)))
  else raw.map (fun p => (p.1, (p.2 : ℚ)))

/-- Sentence-terminator class of the regex `[.!?]`. -/
def isTerm (c : Char) : Bool := c = '.' || c = '!' || c = '?'

/-- Helper counting maximal runs of sentence terminators; `prev` records whether
the previous character was a terminator. -/
def runCountAux (prev : Bool) : List Char → Nat
  | [] => 0
  | c :: rest =>
      (if isTerm c && !prev then 1 else 0) + runCountAux (isTerm c) rest

/-- Number of matches of the regex `[.!?]+` in `text`: one per maximal
run of sentence-terminator characters. -/
def runCount (text : List Char) : Nat := runCountAux false text

/-- Helper counting maximal runs of non-whitespace, i.e. `len(text.split())`. -/
def wsWordCountAux (inWord : Bool) : List Char → Nat
  | [] => 0
  | c :: rest =>
      (if !pySpace c && !inWord then 1 else 0) + wsWordCountAux (!pySpace c) rest

/-- Python `len(text.split())`: number of maximal non-whitespace runs. -/
def wsWordCount (text : List Char) : Nat := wsWordCountAux false text

/-- Index of the last newline character of a list, if any. -/
def lastNewlineIdx (l : List Char) : Option Nat :=
  ((List.range l.length).filter (fun i => l.get? i = some '\n')).getLast?

/-- Scan counting the non-overlapping, greedy matches of the regex `\n\s*\n`:
at a newline, the greedy `\s*` backtracks to the last newline inside the
following whitespace run; the scan resumes after that final newline.
Fuel is the length of the remaining list, which bounds the recursion. -/
def paraMatchesAux : Nat → List Char → Nat
  | 0, _ => 0
  | _ + 1, [] => 0
  | fuel + 1, c :: rest =>
      if c = '\n' then
        let run := rest.takeWhile pySpace
        match lastNewlineIdx run with
        | some j => 1 + paraMatchesAux fuel (rest.drop (j + 1))
        | none => paraMatchesAux fuel rest
      else paraMatchesAux fuel rest

/-- Number of matches of `re.findall(r'\n\s*\n', text)`. -/
def paraMatches (text : List Char) : Nat := paraMatchesAux text.length text

/-- Result record of `TextAnalyzer._analyze_language_patterns`. -/
structure LangPatterns where
  questionCount : Nat
  exclamationCount : Nat
  sentenceCount : Nat
  paragraphCount : Nat
  averageSentenceLength : ℚ
deriving DecidableEq

/-- Embedding of `TextAnalyzer._analyze_language_patterns`
(src/text_analyzer.py lines 93-105). -/
def analyzeLanguagePatterns (text : List Char) : LangPatterns :=
  ⟨ text.count '?',
    text.count '!',
    runCount text,
    paraMatches text + 1,
    if 0 < runCount text then (wsWordCount text : ℚ) / (runCount text : ℚ) else 0 ⟩

/-- Tokens surviving the list comprehension
`[word for word in words if word.isalnum() and word not in self.stop_words]`. -/
def filteredWords (stops : List (List Char)) (words : List (List Char)) :
    List (List Char) :=
  words.filter (fun w => pyIsAlnum w && !stops.contains w)

/-- Distinct elements of a list in order of first occurrence, the key order
of a Python `Counter` built from that list. -/
def firstSeenAux (seen : List (List Char)) : List (List Char) → List (List Char)
  | [] => []
  | a :: l =>
      if seen.contains a then firstSeenAux seen l
      else a :: firstSeenAux (a :: seen) l

/-- Distinct elements in first-occurrence order. -/
def firstSeen (l : List (List Char)) : List (List Char) := firstSeenAux [] l

/-- The `(key, count)` items of `Counter(l)` in insertion order. -/
def counterItems (l : List (List Char)) : List (List Char × Nat) :=
  (firstSeen l).map (fun w => (w, l.count w))

/-- Largest count occurring among counter items. -/
def maxCount (items : List (List Char × Nat)) : Nat :=
  items.foldl (fun a p => max a p.2) 0

/-- Items grouped by count, highest first; within one count the original
(first-seen) order is kept.  `buckets items c` lists items of count
`c, c-1, …, 0` in that order. -/
def buckets (items : List (List Char × Nat)) : Nat → List (List Char × Nat)
  | 0 => items.filter (fun p => p.2 = 0)
  | c + 1 => items.filter (fun p => p.2 = c + 1) ++ buckets items c

/-- Embedding of `Counter.most_common(k)`: the documented behaviour is
`sorted(items, key=count, reverse=True)[:k]` with a stable sort over
insertion-ordered items; a stable descending sort by count is exactly the
count-descending bucket concatenation. -/
def mostCommon (k : Nat) (items : List (List Char × Nat)) : List (List Char × Nat) :=
  (buckets items (maxCount items)).take k

/-- Statistics block of the analysis result. -/
structure Statistics where
  totalWords : Nat
  uniqueWords : Nat
  averageWordLength : ℚ
deriving DecidableEq

/-- Success payload of `TextAnalyzer.analyze_text`. -/
structure AnalysisPayload where
  statistics : Statistics
  themes : List (List Char × ℚ)
  languagePatterns : LangPatterns
  topWords : List (List Char × Nat)
deriving DecidableEq

/-- Returned dictionary of `analyze_text`: either the `{"error": …}` dict
or the full analysis payload. -/
inductive AnalyzeOut where
  | err : List Char → AnalyzeOut
  | result : AnalysisPayload → AnalyzeOut
deriving DecidableEq

/-- Success payload built by the body of `analyze_text` once tokenisation
has succeeded with token list `words`: the statistics block, the theme
scores of the lowered text, the language patterns, and the top-20 word
frequencies. -/
def analyzePayload (table : List (List Char × List (List Char)))
    (stops : List (List Char)) (words : List (List Char))
    (text : List Char) : AnalysisPayload :=
  ⟨ ⟨ words.length,
      words.dedup.length,
      if 0 < words.length then
        ((words.map List.length).sum : ℚ) / (words.length : ℚ)
      else 0 ⟩,
    analyzeThemes table (pyLower text),
    analyzeLanguagePatterns text,
    mostCommon 20 (counterItems (filteredWords stops words)) ⟩

/-- Embedding of `TextAnalyzer.analyze_text` (src/text_analyzer.py lines 37-73).
`tok` is the outcome of the collaborator call `word_tokenize(text.lower())`:
`.error e` models the tokenizer raising, which the `except` clause converts
into the error dict.  The outer `Except` is the exception channel to the
caller: this function never constructs `.error`, mirroring the `try`/`except`
around the whole body. -/
def analyzeText (table : List (List Char × List (List Char)))
    (stops : List (List Char)) (tok : Except (List Char) (List (List Char)))
    (text : List Char) : Except (List Char) AnalyzeOut :=
  if text = [] then .ok (.err "No text provided for analysis".data)
  else
    match tok with
    | .error e => .ok (.err ("Error analyzing text: ".data ++ e))
    | .ok words => .ok (.result (analyzePayload table stops words text))

/-- Python `\w` (ASCII): alphanumeric or underscore. -/
def isWordChar (c : Char) : Bool := c.isAlphanum || c = '_'

/-- Whether the character at index `i` of `text` is a word character
(out-of-range counts as non-word, as at the ends of a regex subject). -/
def wordAt (text : List Char) (i : Nat) : Bool :=
  match text.get? i with
  | some c => isWordChar c
  | none => false

/-- The regex `\b` at offset `p`: exactly one of the characters on either
side of the position is a word character. -/
def boundaryAt (text : List Char) (p : Nat) : Bool :=
  (if p = 0 then false else wordAt text (p - 1)) != wordAt text p

/-- Case-insensitive equality of character lists, the `re.IGNORECASE`
comparison of a literal (escaped) pattern. -/
def ciEq (a b : List Char) : Bool :=
  a.map Char.toLower = b.map Char.toLower

/-- Whether the pattern `\b<term>\b` (term literal, case-insensitive)
matches `text` at offset `p`. -/
def matchAt (text term : List Char) (p : Nat) : Bool :=
  boundaryAt text p && ciEq ((text.drop p).take term.length) term &&
    boundaryAt text (p + term.length)

/-- Left-to-right non-overlapping scan of `re.finditer`: try the pattern at
`p`; on a match record `p` and resume at the match end `p + term.length`,
otherwise advance one position.  The fuel `text.length + 1` suffices for a
complete scan whenever `term` is non-empty (each step advances `p` by at
least one and the scan stops once `p + term.length` exceeds the text);
`search_content` only reaches this with a non-empty term. -/
def scanFrom (text term : List Char) : Nat → Nat → List Nat
  | _, 0 => []
  | p, fuel + 1 =>
      if p + term.length ≤ text.length then
        if matchAt text term p then p :: scanFrom text term (p + term.length) fuel
        else scanFrom text term (p + 1) fuel
      else []

/-- Match start offsets of
`re.finditer(r'\b' + re.escape(term) + r'\b', text, re.IGNORECASE)`. -/
def findMatches (text term : List Char) : List Nat :=
  scanFrom text term 0 (text.length + 1)

/-- The context slice `text[max(0, p-100) : min(len(text), p+len(term)+100)]`
around a match at offset `p`. -/
def sliceCtx (text term : List Char) (p : Nat) : List Char :=
  let s := p - 100
  let e := min text.length (p + term.length + 100)
  (text.drop s).take (e - s)

/-- Returned dictionary of `search_content`: the `{"error": …}` dict, the
`{"message": …}` dict, or `{total_matches, contexts}` where each context
entry is the `(context, position)` pair. -/
inductive SearchOut where
  | err : List Char → SearchOut
  | message : List Char → SearchOut
  | results : Nat → List (List Char × Nat) → SearchOut
deriving DecidableEq

/-- Embedding of `TextAnalyzer.search_content` (src/text_analyzer.py lines
107-139).  The regex pipeline on an escaped literal pattern has no failure
path, so the `except` clause is dead and the result is always `.ok`,
mirroring the source where only `re` calls sit inside the `try`. -/
def searchContent (text term : List Char) : Except (List Char) SearchOut :=
  .ok (
    if text = [] || term = [] then
      .err "No text or search term provided".data
    else
      let ms := findMatches text term
      if ms = [] then
        .message ("No exact matches found for ".data ++
          [Char.ofNat 39] ++ term ++ [Char.ofNat 39])
      else
        .results ms.length (ms.map (fun p => (sliceCtx text term p, p))))

/-!  WebScraper embedding (src/web_scraper.py). -/

/-- Collaborator outcomes of one attempt of `get_website_text_content`:
the `trafilatura.fetch_url` call (which may raise, or return `None` or a
string), and the `trafilatura.extract` call on the downloaded content. -/
structure AttemptEnv where
  fetch : Except (List Char) (Option (List Char))
  extractF : List Char → Except (List Char) (Option (List Char))

/-- Body of one iteration of the retry loop: the `try` block of lines 25-34.
`none` means the attempt failed (exception caught, falsy download, or falsy
extraction); `some t` means non-empty text `t` was extracted and returned. -/
def attemptOnce (env : AttemptEnv) : Option (List Char) :=
  match env.fetch with
  | .error _ => none
  | .ok none => none
  | .ok (some d) =>
      if d = [] then none
      else
        match env.extractF d with
        | .error _ => none
        | .ok none => none
        | .ok (some t) => if t = [] then none else some t

/-- Observable trace of one call of `get_website_text_content`: the returned
value, the number of attempts made, and the list of sleep durations. -/
structure ScrapeRun where
  result : Option (List Char)
  attempts : Nat
  sleeps : List Nat
deriving DecidableEq

/-- The retry loop of `get_website_text_content` from attempt index `i` with
`rem` iterations remaining: on success return immediately; otherwise, if
another iteration follows (`attempt < max_retries - 1`), sleep
`attempt + 1` seconds and continue. -/
def scrapeGo (att : Nat → Option (List Char)) (i : Nat) : Nat → ScrapeRun
  | 0 => ⟨none, 0, []⟩
  | rem + 1 =>
      match att i with
      | some t => ⟨some t, 1, []⟩
      | none =>
          if rem = 0 then ⟨none, 1, []⟩
          else
            let r := scrapeGo att (i + 1) rem
            ⟨r.result, r.attempts + 1, (i + 1) :: r.sleeps⟩

/-- Embedding of `WebScraper.get_website_text_content`
(src/web_scraper.py lines 20-41), instrumented with its attempt/sleep trace. -/
def getWebsiteTextContent (env : Nat → AttemptEnv) (maxRetries : Nat) : ScrapeRun :=
  scrapeGo (fun i => attemptOnce (env i)) 0 maxRetries

/-- The operation as seen by the caller: every exception in an attempt body
is caught by the `except` clause inside the loop, so the call itself
returns `text` or `None` and never raises. -/
def getWebsiteTextContentOp (env : Nat → AttemptEnv) (maxRetries : Nat) :
    Except (List Char) (Option (List Char)) :=
  .ok (getWebsiteTextContent env maxRetries).result

/-- Embedding of `WebScraper.get_text_preview` (src/web_scraper.py lines 43-49). -/
def getTextPreview (text : List Char) (maxLength : Nat) : List Char :=
  if text = [] then "No content available".data
  else if maxLength < text.length then text.take maxLength ++ "...".data
  else text

/-- Caller view of `get_text_preview`: pure slicing and concatenation,
no raising operation in the body. -/
def getTextPreviewOp (text : List Char) (maxLength : Nat) :
    Except (List Char) (List Char) :=
  .ok (getTextPreview text maxLength)

/-- Embedding of `WebScraper.save_text_to_file` (src/web_scraper.py lines
51-68).  `now` is `int(time.time())`; `mkdirRes` is the outcome of
`output_dir.mkdir(exist_ok=True)` and `writeRes` that of
`open(file_path, "w", encoding="utf-8")` plus `f.write(text)`.  The body has
no `try`, so a failing collaborator call propagates as `.error`. -/
def saveTextToFile (text : List Char) (filename : Option (List Char))
    (now : Nat) (mkdirRes writeRes : Except (List Char) Unit) :
    Except (List Char) (List Char) :=
  if text = [] then .ok "No content to save".data
  else
    let fname :=
      match filename with
      | none => "scraped_content_".data ++ (toString now).data ++ ".txt".data
      | some f =>
          if f = [] then "scraped_content_".data ++ (toString now).data ++ ".txt".data
          else f
    do
      _ ← mkdirRes
      _ ← writeRes
      pure ("scraped_content/".data ++ fname)

/-- One scraped list item `{name, source, url}`. -/
structure ScrapedItem where
  name : List Char
  source : List Char
  url : List Char
deriving DecidableEq

/-- Python `str.strip()`: drop ASCII whitespace from both ends. -/
def pyStrip (l : List Char) : List Char :=
  ((l.dropWhile pySpace).reverse.dropWhile pySpace).reverse

/-- Body of `scrape_list_items` before the `except` clause: `httpGet` is
`requests.get` plus `raise_for_status` (an `.error` models a raised
exception, e.g. on non-2xx); `selectTexts` is the BeautifulSoup pipeline
producing the raw `get_text()` of each selected element (container search
or CSS selector, depending on the call). -/
def scrapeListItemsRaw (httpGet : Except (List Char) (List Char))
    (selectTexts : List Char → Except (List Char) (List (List Char)))
    (url : List Char) : Except (List Char) (List ScrapedItem) := do
  let html ← httpGet
  let texts ← selectTexts html
  pure (((texts.map pyStrip).filter (fun t => t ≠ [])).map
    (fun t => ⟨t, url, url⟩))

/-- Embedding of `WebScraper.scrape_list_items` (src/web_scraper.py lines
70-112): any exception is caught and converted to the empty list. -/
def scrapeListItems (httpGet : Except (List Char) (List Char))
    (selectTexts : List Char → Except (List Char) (List (List Char)))
    (url : List Char) : Except (List Char) (List ScrapedItem) :=
  match scrapeListItemsRaw httpGet selectTexts url with
  | .error _ => .ok []
  | .ok v => .ok v

/-- Metadata object returned by `trafilatura.extract_metadata`, with
possibly-absent fields. -/
structure PageMeta where
  title : Option (List Char)
  author : Option (List Char)
  date : Option (List Char)
  description : Option (List Char)
deriving DecidableEq

/-- Body of `get_website_metadata` before the `except` clause.
`extractMeta` returning `.ok none` models `extract_metadata` returning
`None`, on which the attribute access `metadata.title` raises. -/
def getWebsiteMetadataRaw (fetch : Except (List Char) (Option (List Char)))
    (extractMeta : List Char → Except (List Char) (Option PageMeta)) :
    Except (List Char) (List (List Char × List Char)) := do
  let dOpt ← fetch
  match dOpt with
  | some d =>
      if d = [] then pure []
      else
        match ← extractMeta d with
        | some md =>
            pure [ ("title".data, md.title.getD []),
                   ("author".data, md.author.getD []),
                   ("date".data, md.date.getD []),
                   ("description".data, md.description.getD []) ]
        | none => Except.error "AttributeError".data
  | none => pure []

/-- Embedding of `WebScraper.get_website_metadata` (src/web_scraper.py lines
114-131): any exception is caught and the empty dict returned. -/
def getWebsiteMetadata (fetch : Except (List Char) (Option (List Char)))
    (extractMeta : List Char → Except (List Char) (Option PageMeta)) :
    Except (List Char) (List (List Char × List Char)) :=
  match getWebsiteMetadataRaw fetch extractMeta with
  | .error _ => .ok []
  | .ok v => .ok v

/-- Whether an `Except` value is a normal return (`true`) rather than a
propagated exception (`false`). -/
def okB {ε α : Type} : Except ε α → Bool
  | .ok _ => true
  | .error _ => false

/-- Per-instance state of a `TextAnalyzer` object after `__init__`: the
stopword set and the theme table.  No method ever assigns to `self`, so
method calls are modelled as state-passing functions that return the state. -/
structure AnalyzerState where
  stopWords : List (List Char)
  themes : List (List Char × List (List Char))
deriving DecidableEq

/-- `TextAnalyzer()` construction with the stopword list supplied by the
NLTK collaborator. -/
def mkAnalyzer (stops : List (List Char)) : AnalyzerState := ⟨stops, themeTable⟩

/-- A method call `analyzer.analyze_text(text)`: reads the instance state,
applies the tokenizer collaborator to the lowered text, and returns the
unchanged state alongside the result. -/
def analyzeTextCall (s : AnalyzerState)
    (tokenizer : List Char → Except (List Char) (List (List Char)))
    (text : List Char) : Except (List Char) AnalyzeOut × AnalyzerState :=
  (analyzeText s.themes s.stopWords (tokenizer (pyLower text)) text, s)

/-- A method call `analyzer.search_content(text, term)`: uses no instance
state and returns it unchanged. -/
def searchContentCall (s : AnalyzerState) (text term : List Char) :
    Except (List Char) SearchOut × AnalyzerState :=
  (searchContent text term, s)

/-- Dictionary lookup `d[key]` on an association list of scores, `0` when
the key is absent. -/
def lookupScore (l : List (List Char × ℚ)) (k : List Char) : ℚ :=
  match l.find? (fun p => p.1 == k) with
  | some p => p.2
  | none => 0

/-!  Theorems. -/

/-- C5: `get_text_preview` returns the fixed placeholder on empty text,
the unchanged text when it fits in `max_length`, and the first
`max_length` characters followed by the `"..."` truncation marker
otherwise. -/
theorem getTextPreview_spec (text : List Char) (maxLength : Nat) :
    (text = [] → getTextPreview text maxLength = "No content available".data) ∧
    (text ≠ [] → text.length ≤ maxLength → getTextPreview text maxLength = text) ∧
    (text ≠ [] → maxLength < text.length →
      getTextPreview text maxLength = text.take maxLength ++ "...".data) := by
  refine ⟨fun h => by simp [getTextPreview, h], fun h hle => ?_, fun h hlt => ?_⟩
  · simp [getTextPreview, h, Nat.not_lt.mpr hle]
  · simp [getTextPreview, h, hlt]

/-- Witness for C5: a 10-character text previewed with `max_length = 5`
yields exactly the first 5 characters plus the marker, and the empty text
yields the placeholder. -/
theorem getTextPreview_spec_witness :
    getTextPreview "0123456789".data 5 = "01234".data ++ "...".data ∧
    getTextPreview [] 5 = "No content available".data :=
  ⟨(getTextPreview_spec "0123456789".data 5).2.2 (by decide) (by decide),
   (getTextPreview_spec [] 5).1 rfl⟩

/-- C10: with the stopword set and theme table fixed at construction,
`analyze_text` and `search_content` are pure: a repeated call with equal
arguments returns an equal result, and neither call changes the instance
state. -/
theorem analyzer_deterministic (stops : List (List Char))
    (tokenizer : List Char → Except (List Char) (List (List Char)))
    (text term : List Char) :
    (analyzeTextCall (mkAnalyzer stops) tokenizer text).1 =
      (analyzeTextCall ((analyzeTextCall (mkAnalyzer stops) tokenizer text).2)
        tokenizer text).1 ∧
    (analyzeTextCall (mkAnalyzer stops) tokenizer text).2 = mkAnalyzer stops ∧
    (searchContentCall (mkAnalyzer stops) text term).1 =
      (searchContentCall ((searchContentCall (mkAnalyzer stops) text term).2)
        text term).1 ∧
    (searchContentCall (mkAnalyzer stops) text term).2 = mkAnalyzer stops :=
  ⟨rfl, rfl, rfl, rfl⟩

/-- Unfolding equation of one iteration of the retry loop. -/
theorem scrapeGo_succ (att : Nat → Option (List Char)) (i rem : Nat) :
    scrapeGo att i (rem + 1) =
      (match att i with
      | some t => ⟨some t, 1, []⟩
      | none =>
          if rem = 0 then ⟨none, 1, []⟩
          else
            ⟨(scrapeGo att (i + 1) rem).result,
             (scrapeGo att (i + 1) rem).attempts + 1,
             (i + 1) :: (scrapeGo att (i + 1) rem).sleeps⟩ : ScrapeRun) := rfl

/-- Helper for C6: if every attempt fails, the loop runs all remaining
iterations, sleeping `attempt + 1` seconds after every attempt but the last. -/
theorem scrapeGo_all_none (att : Nat → Option (List Char))
    (h : ∀ i, att i = none) :
    ∀ rem i, scrapeGo att i rem = ⟨none, rem, List.range' (i + 1) (rem - 1)⟩ := by
  intro rem
  induction rem with
  | zero => intro i; simp [scrapeGo]
  | succ n ih =>
      intro i
      rw [scrapeGo_succ, h i]
      cases n with
      | zero => simp
      | succ m =>
          simp only [Nat.succ_ne_zero, if_false, ih (i + 1)]
          simp [List.range'_succ]

/-- Helper for C6: if attempt `i + k` is the first succeeding attempt, the
loop returns its text after `k + 1` attempts and `k` sleeps of durations
`i + 1, …, i + k`. -/
theorem scrapeGo_first_some (att : Nat → Option (List Char)) :
    ∀ rem i k t, k < rem → att (i + k) = some t →
      (∀ j, j < k → att (i + j) = none) →
      scrapeGo att i rem = ⟨some t, k + 1, List.range' (i + 1) k⟩ := by
  intro rem
  induction rem with
  | zero => intro i k t hk; omega
  | succ n ih =>
      intro i k t hk hsome hnone
      cases k with
      | zero =>
          have h0 : att i = some t := by simpa using hsome
          rw [scrapeGo_succ, h0]
          simp
      | succ k =>
          have h0 : att i = none := by simpa using hnone 0 (Nat.succ_pos k)
          have hn : n ≠ 0 := by omega
          have hsome' : att (i + 1 + k) = some t := by
            have he : i + 1 + k = i + (k + 1) := by omega
            rw [he]; exact hsome
          have hnone' : ∀ j, j < k → att (i + 1 + j) = none := by
            intro j hj
            have he : i + 1 + j = i + (j + 1) := by omega
            rw [he]; exact hnone (j + 1) (by omega)
          rw [scrapeGo_succ, h0]
          simp only [hn, if_false, ih (i + 1) k t (by omega) hsome' hnone']
          simp [List.range'_succ]

/-- C6: with every fetch/extract attempt failing, `get_website_text_content`
returns absence after exactly `max_retries` attempts and `max_retries - 1`
linear-backoff sleeps of `1, 2, …, max_retries - 1` seconds; and if attempt
`k` (0-based) is the first to extract non-empty text, that text is returned
after exactly `k + 1` attempts with sleeps `1, …, k` and nothing after it. -/
theorem retry_budget_spec (env : Nat → AttemptEnv) (m : Nat) :
    ((∀ i, attemptOnce (env i) = none) →
      getWebsiteTextContent env m = ⟨none, m, List.range' 1 (m - 1)⟩) ∧
    (∀ k t, k < m → attemptOnce (env k) = some t →
      (∀ j, j < k → attemptOnce (env j) = none) →
      getWebsiteTextContent env m = ⟨some t, k + 1, List.range' 1 k⟩) := by
  constructor
  · intro h
    exact scrapeGo_all_none _ h m 0
  · intro k t hk hsome hnone
    exact scrapeGo_first_some _ m 0 k t hk (by simpa using hsome)
      (fun j hj => by simpa using hnone j hj)

/-- Witness for C6: with 3 always-failing attempts the call makes 3 attempts
and sleeps 1 s and 2 s; with the second attempt succeeding it returns that
text after 2 attempts and a single 1 s sleep. -/
theorem retry_budget_spec_witness :
    getWebsiteTextContent (fun _ => ⟨.ok none, fun _ => .ok none⟩) 3 =
      ⟨none, 3, List.range' 1 2⟩ ∧
    getWebsiteTextContent
      (fun i => if i = 1 then ⟨.ok (some "d".data), fun _ => .ok (some "t".data)⟩
        else ⟨.ok none, fun _ => .ok none⟩) 3 =
      ⟨some "t".data, 2, List.range' 1 1⟩ :=
  ⟨(retry_budget_spec (fun _ => ⟨.ok none, fun _ => .ok none⟩) 3).1
      (fun _ => rfl),
   (retry_budget_spec _ 3).2 1 "t".data (by decide) (by decide)
      (fun j hj => by
        have hj0 : j = 0 := by omega
        subst hj0; decide)⟩

/-- C3 counterexample: on the spec's own scenario text
`"community community amenities"` the community and amenities scores are
both `1/2` — each theme matches exactly one keyword once, the two counts
normalise to `1/2` each — so `themes.community` is NOT strictly greater
than `themes.amenities`. -/
theorem community_not_gt_amenities_cex :
    ∃ p, analyzeText themeTable []
        (.ok ["community".data, "community".data, "amenities".data])
        "community community amenities".data = .ok (.result p) ∧
      lookupScore p.themes "community".data = (1 : ℚ) / 2 ∧
      lookupScore p.themes "amenities".data = (1 : ℚ) / 2 ∧
      ¬ (lookupScore p.themes "amenities".data <
          lookupScore p.themes "community".data) := by
  have hraw : themeRaw themeTable (pyLower "community community amenities".data) =
      [("community".data, 1), ("convenience".data, 0), ("location".data, 0),
       ("amenities".data, 1), ("lifestyle".data, 0), ("sustainability".data, 0)] := by
    decide
  have hc : lookupScore
      (analyzeThemes themeTable (pyLower "community community amenities".data))
      "community".data = (1 : ℚ) / 2 := by
    simp only [analyzeThemes, hraw]
    simp +decide [lookupScore, List.find?]
  have ha : lookupScore
      (analyzeThemes themeTable (pyLower "community community amenities".data))
      "amenities".data = (1 : ℚ) / 2 := by
    simp only [analyzeThemes, hraw]
    simp +decide [lookupScore, List.find?]
  refine ⟨_, rfl, hc, ha, ?_⟩
  show ¬ lookupScore
      (analyzeThemes themeTable (pyLower "community community amenities".data))
      "amenities".data <
    lookupScore
      (analyzeThemes themeTable (pyLower "community community amenities".data))
      "community".data
  rw [hc, ha]
  exact lt_irrefl _

/-- C3 amended: `analyze_text("community community amenities")` returns
theme scores with `themes.community = themes.amenities = 0.5`: keyword
match counts are 1 and 1 (each theme counted once per distinct keyword,
regardless of repetition), so both normalise to `1/2`, independently of the
stopword set and of the tokenizer output. -/
theorem community_amenities_half (stops : List (List Char))
    (words : List (List Char)) :
    ∃ p, analyzeText themeTable stops (.ok words)
        "community community amenities".data = .ok (.result p) ∧
      lookupScore p.themes "community".data = (1 : ℚ) / 2 ∧
      lookupScore p.themes "amenities".data = (1 : ℚ) / 2 := by
  have hraw : themeRaw themeTable (pyLower "community community amenities".data) =
      [("community".data, 1), ("convenience".data, 0), ("location".data, 0),
       ("amenities".data, 1), ("lifestyle".data, 0), ("sustainability".data, 0)] := by
    decide
  refine ⟨_, rfl, ?_, ?_⟩ <;>
    · show lookupScore
        (analyzeThemes themeTable (pyLower "community community amenities".data))
        _ = (1 : ℚ) / 2
      simp only [analyzeThemes, hraw]
      simp +decide [lookupScore, List.find?]

/-- Helper for C8: a list without sentence terminators contains no
terminator run. -/
theorem runCountAux_eq_zero {l : List Char}
    (h : ∀ c ∈ l, isTerm c = false) : ∀ b, runCountAux b l = 0 := by
  induction l with
  | nil => intro b; rfl
  | cons c t ih =>
      intro b
      have hc := h c (List.mem_cons_self c t)
      simp [runCountAux, hc, ih (fun x hx => h x (List.mem_cons_of_mem c hx))]

/-- C8: for every text containing no `.`, `!` or `?`, the language patterns
of a successful `analyze_text` have `sentence_count = 0` and
`average_sentence_length = 0` — the guarded division never runs with a zero
divisor. -/
theorem sentence_length_guard (stops : List (List Char))
    (words : List (List Char)) (text : List Char) (hne : text ≠ [])
    (hterm : ∀ c ∈ text, c ≠ '.' ∧ c ≠ '!' ∧ c ≠ '?') :
    ∃ p, analyzeText themeTable stops (.ok words) text = .ok (.result p) ∧
      p.languagePatterns.sentenceCount = 0 ∧
      p.languagePatterns.averageSentenceLength = 0 := by
  have hz : runCount text = 0 := by
    refine runCountAux_eq_zero (fun c hc => ?_) false
    rcases hterm c hc with ⟨h1, h2, h3⟩
    simp [isTerm, h1, h2, h3]
  refine ⟨analyzePayload themeTable stops words text, ?_, ?_, ?_⟩
  · simp only [analyzeText, if_neg hne]
  · simp [analyzePayload, analyzeLanguagePatterns, hz]
  · simp [analyzePayload, analyzeLanguagePatterns, hz]

/-- Helper: dividing each score by `b` divides the sum by `b`. -/
theorem sum_scores_div (l : List (List Char × Nat)) (b : ℚ) :
    (l.map (fun p => (p.2 : ℚ) / b)).sum =
      (((l.map (fun p => p.2)).sum : Nat) : ℚ) / b := by
  induction l with
  | nil => simp
  | cons a t ih =>
      simp only [List.map_cons, List.sum_cons, ih, Nat.cast_add]
      rw [add_div]

/-- Helper: a member of a list of naturals is at most the list sum. -/
theorem nat_le_listSum {a : Nat} : ∀ l : List Nat, a ∈ l → a ≤ l.sum := by
  intro l
  induction l with
  | nil => intro h; cases h
  | cons b t ih =>
      intro h
      rcases List.mem_cons.mp h with rfl | h2
      · simp only [List.sum_cons]
        exact Nat.le_add_right a t.sum
      · have h3 := ih h2
        simp only [List.sum_cons]
        omega

/-- Helper: a list of naturals with zero sum is all zeros. -/
theorem listSum_zero_all {l : List Nat} (h : l.sum = 0) : ∀ a ∈ l, a = 0 := by
  induction l with
  | nil => intro a ha; cases ha
  | cons b t ih =>
      intro a ha
      simp only [List.sum_cons] at h
      rcases List.mem_cons.mp ha with rfl | h2
      · omega
      · exact ih (by omega) a h2

/-- Helper for C2: with a positive total match count the normalised theme
scores sum to exactly 1. -/
theorem analyzeThemes_sum_eq_one (table : List (List Char × List (List Char)))
    (text : List Char)
    (hpos : 0 < ((themeRaw table text).map (fun p => p.2)).sum) :
    ((analyzeThemes table text).map Prod.snd).sum = 1 := by
  simp only [analyzeThemes, if_pos hpos, List.map_map]
  have h1 : ((themeRaw table text).map
      (Prod.snd ∘ fun p => ((p.1, (p.2 : ℚ) /
        ((((themeRaw table text).map (fun p => p.2)).sum : Nat) : ℚ)) :
          List Char × ℚ))).sum =
      ((themeRaw table text).map (fun p => (p.2 : ℚ) /
        ((((themeRaw table text).map (fun p => p.2)).sum : Nat) : ℚ))).sum := rfl
  rw [h1, sum_scores_div]
  exact div_self (by exact_mod_cast Nat.pos_iff_ne_zero.mp hpos)

/-- Helper for C2: with a zero total match count every theme score is the
raw zero count. -/
theorem analyzeThemes_all_zero (table : List (List Char × List (List Char)))
    (text : List Char)
    (hz : ((themeRaw table text).map (fun p => p.2)).sum = 0) :
    ∀ e ∈ analyzeThemes table text, e.2 = 0 := by
  intro e he
  simp only [analyzeThemes, hz, lt_irrefl, if_false] at he
  rcases List.mem_map.mp he with ⟨p, hp, rfl⟩
  have hp0 : p.2 = 0 :=
    listSum_zero_all hz _ (List.mem_map.mpr ⟨p, hp, rfl⟩)
  simp [hp0]

/-- C2: on a non-empty text with successful tokenization, `analyze_text`
returns a themes mapping over the 6 fixed themes; if at least one theme
keyword occurs as a substring of the lower-cased text, the scores sum to
exactly 1, and if none occurs, every score is the raw zero count. -/
theorem theme_score_normalization (stops : List (List Char))
    (words : List (List Char)) (text : List Char) (hne : text ≠ []) :
    ∃ p, analyzeText themeTable stops (.ok words) text = .ok (.result p) ∧
      p.themes.map Prod.fst = themeTable.map Prod.fst ∧
      ((∃ q ∈ themeTable, ∃ kw ∈ q.2, occursIn kw (pyLower text) = true) →
        (p.themes.map Prod.snd).sum = 1) ∧
      ((∀ q ∈ themeTable, ∀ kw ∈ q.2, occursIn kw (pyLower text) = false) →
        ∀ e ∈ p.themes, e.2 = 0) := by
  refine ⟨analyzePayload themeTable stops words text, ?_, ?_, ?_, ?_⟩
  · simp only [analyzeText, if_neg hne]
  · show (analyzeThemes themeTable (pyLower text)).map Prod.fst =
      themeTable.map Prod.fst
    simp only [analyzeThemes, themeRaw]
    split <;> simp [List.map_map, Function.comp_def]
  · rintro ⟨q, hq, kw, hkw, hocc⟩
    show ((analyzeThemes themeTable (pyLower text)).map Prod.snd).sum = 1
    have hm : kw ∈ q.2.filter (fun k => occursIn k (pyLower text)) :=
      List.mem_filter.mpr ⟨hkw, by simp [hocc]⟩
    have hcnt : 0 < (q.2.filter (fun k => occursIn k (pyLower text))).length :=
      List.length_pos.mpr (List.ne_nil_of_mem hm)
    have hmem : (q.2.filter (fun k => occursIn k (pyLower text))).length ∈
        (themeRaw themeTable (pyLower text)).map (fun p => p.2) :=
      List.mem_map.mpr ⟨(q.1, (q.2.filter (fun k => occursIn k (pyLower text))).length),
        List.mem_map.mpr ⟨q, hq, rfl⟩, rfl⟩
    exact analyzeThemes_sum_eq_one themeTable (pyLower text)
      (lt_of_lt_of_le hcnt (nat_le_listSum _ hmem))
  · intro hall
    show ∀ e ∈ analyzeThemes themeTable (pyLower text), e.2 = 0
    have hz : ((themeRaw themeTable (pyLower text)).map (fun p => p.2)).sum = 0 := by
      have hall2 : ∀ a ∈ (themeRaw themeTable (pyLower text)).map (fun p => p.2),
          a = 0 := by
        intro a ha
        rcases List.mem_map.mp ha with ⟨p, hp, rfl⟩
        rcases List.mem_map.mp hp with ⟨q, hq, rfl⟩
        simp only [List.length_eq_zero, List.filter_eq_nil_iff]
        intro kw hkw
        simp [hall q hq kw hkw]
      exact List.sum_eq_zero hall2
    exact analyzeThemes_all_zero themeTable (pyLower text) hz

/-- Witness for C2: on the text `"green energy"` (two sustainability
keywords, nothing else) the theme scores sum to 1. -/
theorem theme_score_normalization_witness :
    ∃ p, analyzeText themeTable [] (.ok ["green".data, "energy".data])
        "green energy".data = .ok (.result p) ∧
      p.themes.map Prod.fst = themeTable.map Prod.fst ∧
      ((∃ q ∈ themeTable, ∃ kw ∈ q.2, occursIn kw (pyLower "green energy".data) = true) →
        (p.themes.map Prod.snd).sum = 1) ∧
      ((∀ q ∈ themeTable, ∀ kw ∈ q.2, occursIn kw (pyLower "green energy".data) = false) →
        ∀ e ∈ p.themes, e.2 = 0) :=
  theme_score_normalization [] ["green".data, "energy".data]
    "green energy".data (by decide)

/-- Witness for C8: a terminator-free sentence has zero sentence count and
zero average sentence length. -/
theorem sentence_length_guard_witness :
    ∃ p, analyzeText themeTable [] (.ok ["hello".data, "world".data])
        "hello world".data = .ok (.result p) ∧
      p.languagePatterns.sentenceCount = 0 ∧
      p.languagePatterns.averageSentenceLength = 0 :=
  sentence_length_guard [] ["hello".data, "world".data] "hello world".data
    (by decide) (by decide)

/-- C7: `search_content` returns the error dict when text or term is empty,
a message dict (not an error, not an exception) when the scan finds no
word-boundary case-insensitive match of the escaped term, and, when the
scan finds `N > 0` non-overlapping matches, `total_matches = N` together
with exactly `N` context entries. -/
theorem search_content_shape (text term : List Char) :
    ((text = [] ∨ term = []) →
      searchContent text term = .ok (.err "No text or search term provided".data)) ∧
    (text ≠ [] → term ≠ [] → findMatches text term = [] →
      ∃ msg, searchContent text term = .ok (.message msg)) ∧
    (∀ N, text ≠ [] → term ≠ [] → 0 < N → (findMatches text term).length = N →
      ∃ ctxs, searchContent text term = .ok (.results N ctxs) ∧
        ctxs.length = N) := by
  refine ⟨fun h => ?_, fun h1 h2 h3 => ?_, fun N h1 h2 hN hlen => ?_⟩
  · rcases h with h | h <;> simp [searchContent, h]
  · refine ⟨"No exact matches found for ".data ++ [Char.ofNat 39] ++ term ++
      [Char.ofNat 39], ?_⟩
    simp [searchContent, h1, h2, h3]
  · have hms : findMatches text term ≠ [] := by
      intro hnil
      rw [hnil] at hlen
      simp at hlen
      omega
    refine ⟨(findMatches text term).map (fun p => (sliceCtx text term p, p)), ?_, ?_⟩
    · simp only [searchContent, h1, h2]
      rw [if_neg (by simp [h1, h2]), if_neg hms, hlen]
    · rw [List.length_map, hlen]

/-- Witness for C7: searching `"hi"` in `"hi bob hi"` finds 2 matches with
2 context entries; searching a missing word yields a message; empty input
yields the error dict. -/
theorem search_content_shape_witness :
    (∃ ctxs, searchContent "hi bob hi".data "hi".data = .ok (.results 2 ctxs) ∧
      ctxs.length = 2) ∧
    (∃ msg, searchContent "hi bob hi".data "zap".data = .ok (.message msg)) ∧
    searchContent [] "hi".data = .ok (.err "No text or search term provided".data) :=
  ⟨(search_content_shape "hi bob hi".data "hi".data).2.2 2 (by decide) (by decide)
      (by decide) (by decide),
   (search_content_shape "hi bob hi".data "zap".data).2.1 (by decide) (by decide)
      (by decide),
   (search_content_shape [] "hi".data).1 (Or.inl rfl)⟩

/-- Helper for C9: every offset recorded by the scan lies at or after the
scan position and fits the term inside the text. -/
theorem scanFrom_mem (text term : List Char) :
    ∀ fuel p q, q ∈ scanFrom text term p fuel →
      p ≤ q ∧ q + term.length ≤ text.length := by
  intro fuel
  induction fuel with
  | zero => intro p q hq; simp [scanFrom] at hq
  | succ n ih =>
      intro p q hq
      by_cases h1 : p + term.length ≤ text.length
      · rw [scanFrom, if_pos h1] at hq
        by_cases h2 : matchAt text term p = true
        · rw [if_pos h2] at hq
          rcases List.mem_cons.mp hq with rfl | hq2
          · exact ⟨Nat.le_refl q, h1⟩
          · have := ih _ _ hq2
            exact ⟨by omega, this.2⟩
        · rw [if_neg h2] at hq
          have := ih _ _ hq
          exact ⟨by omega, this.2⟩
      · rw [scanFrom, if_neg h1] at hq
        cases hq

/-- Helper for C9: the scan records strictly increasing offsets (the next
probe starts at the end of a recorded match, and the term is non-empty). -/
theorem scanFrom_sorted (text term : List Char) (hterm : term ≠ []) :
    ∀ fuel p, (scanFrom text term p fuel).Pairwise (fun a b => a < b) := by
  have htl : 0 < term.length := List.length_pos.mpr hterm
  intro fuel
  induction fuel with
  | zero => intro p; simp [scanFrom]
  | succ n ih =>
      intro p
      by_cases h1 : p + term.length ≤ text.length
      · rw [scanFrom, if_pos h1]
        by_cases h2 : matchAt text term p = true
        · rw [if_pos h2]
          refine List.Pairwise.cons ?_ (ih (p + term.length))
          intro q hq
          have := (scanFrom_mem text term n (p + term.length) q hq).1
          omega
        · rw [if_neg h2]
          exact ih (p + 1)
      · rw [scanFrom, if_neg h1]
        exact List.Pairwise.nil

/-- C9: whenever `search_content` returns matches, the context entries are
in strictly increasing position order, every position is a valid offset
into the text, and every context is a contiguous substring of the text of
length at most the term length plus 200. -/
theorem search_content_ctx_bounds (text term : List Char) (N : Nat)
    (ctxs : List (List Char × Nat))
    (h : searchContent text term = .ok (.results N ctxs)) :
    ctxs.Pairwise (fun a b => a.2 < b.2) ∧
    ∀ e ∈ ctxs, e.2 < text.length ∧ e.1.length ≤ term.length + 200 ∧
      ∃ pre post, text = pre ++ e.1 ++ post := by
  simp only [searchContent, Except.ok.injEq] at h
  by_cases h0 : text = [] ∨ term = []
  · rcases h0 with h0 | h0 <;> simp [h0] at h
  · push_neg at h0
    rw [if_neg (by simp [h0.1, h0.2])] at h
    by_cases hms : findMatches text term = []
    · rw [if_pos hms] at h
      cases h
    · rw [if_neg hms] at h
      cases h
      have htl : 0 < term.length := List.length_pos.mpr h0.2
      constructor
      · rw [List.pairwise_map]
        exact scanFrom_sorted text term h0.2 _ 0
      · intro e he
        rcases List.mem_map.mp he with ⟨q, hq, rfl⟩
        have hb := scanFrom_mem text term _ 0 q hq
        refine ⟨by omega, ?_, ?_⟩
        · show (sliceCtx text term q).length ≤ term.length + 200
          simp only [sliceCtx, List.length_take, List.length_drop]
          omega
        · refine ⟨text.take (q - 100),
            (text.drop (q - 100)).drop (min text.length (q + term.length + 100) - (q - 100)),
            ?_⟩
          show text = _ ++ (text.drop (q - 100)).take
            (min text.length (q + term.length + 100) - (q - 100)) ++ _
          rw [List.append_assoc, List.take_append_drop, List.take_append_drop]

/-- Witness for C9: the two matches of `"hi"` in `"hi bob hi"` come back in
increasing position order with in-bounds positions and bounded contexts. -/
theorem search_content_ctx_bounds_witness :
    ([("hi bob hi".data, 0), ("hi bob hi".data, 7)] :
        List (List Char × Nat)).Pairwise (fun a b => a.2 < b.2) ∧
    ∀ e ∈ ([("hi bob hi".data, 0), ("hi bob hi".data, 7)] :
        List (List Char × Nat)),
      e.2 < "hi bob hi".data.length ∧
      e.1.length ≤ "hi".data.length + 200 ∧
      ∃ pre post, "hi bob hi".data = pre ++ e.1 ++ post :=
  search_content_ctx_bounds "hi bob hi".data "hi".data 2
    [("hi bob hi".data, 0), ("hi bob hi".data, 7)] rfl

/-- C1 counterexample: `save_text_to_file` has no `try`/`except`, so when
the directory-creation collaborator raises, the exception propagates to the
caller — refuting the claim that it never raises even when directory
creation fails. -/
theorem save_text_to_file_raises_cex :
    okB (saveTextToFile "x".data none 0
      (.error "mkdir failed".data) (.ok ())) = false := rfl

/-- C1 amended: every public operation of `TextAnalyzer` and `WebScraper`
except `save_text_to_file` returns a success payload, an explicit
error/message field, or an absence/default value and never propagates an
exception, whatever its collaborators do; `save_text_to_file` does so
whenever directory creation and the file write succeed (and when the text
is empty it returns its placeholder without touching the filesystem), but
it propagates filesystem exceptions. -/
theorem public_ops_never_raise
    (table : List (List Char × List (List Char))) (stops : List (List Char))
    (tok : Except (List Char) (List (List Char))) (text term : List Char)
    (env : Nat → AttemptEnv) (m : Nat)
    (ptext : List Char) (plen : Nat)
    (stext : List Char) (fname : Option (List Char)) (now : Nat)
    (mkdirRes writeRes : Except (List Char) Unit)
    (httpGet : Except (List Char) (List Char))
    (selectTexts : List Char → Except (List Char) (List (List Char)))
    (url : List Char)
    (fetch : Except (List Char) (Option (List Char)))
    (extractMeta : List Char → Except (List Char) (Option PageMeta))
    (hmk : mkdirRes = .ok ()) (hwr : writeRes = .ok ()) :
    okB (analyzeText table stops tok text) = true ∧
    okB (searchContent text term) = true ∧
    okB (getWebsiteTextContentOp env m) = true ∧
    okB (getTextPreviewOp ptext plen) = true ∧
    okB (saveTextToFile stext fname now mkdirRes writeRes) = true ∧
    okB (scrapeListItems httpGet selectTexts url) = true ∧
    okB (getWebsiteMetadata fetch extractMeta) = true := by
  subst hmk hwr
  refine ⟨?_, rfl, rfl, rfl, ?_, ?_, ?_⟩
  · by_cases h : text = []
    · simp [analyzeText, h, okB]
    · cases tok <;> simp [analyzeText, h, okB]
  · by_cases h : stext = []
    · simp [saveTextToFile, h, okB]
    · simp only [saveTextToFile, if_neg h]
      rfl
  · cases h : scrapeListItemsRaw httpGet selectTexts url <;>
      simp [scrapeListItems, h, okB]
  · cases h : getWebsiteMetadataRaw fetch extractMeta <;>
      simp [getWebsiteMetadata, h, okB]

/-- Witness for C1 (amended): a concrete run of all seven operations with
succeeding filesystem collaborators returns normally everywhere. -/
theorem public_ops_never_raise_witness :
    okB (analyzeText themeTable [] (.ok ["a".data]) "a".data) = true ∧
    okB (searchContent "a".data "a".data) = true ∧
    okB (getWebsiteTextContentOp (fun _ => ⟨.ok none, fun _ => .ok none⟩) 3) = true ∧
    okB (getTextPreviewOp "p".data 5) = true ∧
    okB (saveTextToFile "s".data none 0 (.ok ()) (.ok ())) = true ∧
    okB (scrapeListItems (.ok "h".data) (fun _ => .ok []) "u".data) = true ∧
    okB (getWebsiteMetadata (.ok none) (fun _ => .ok none)) = true :=
  public_ops_never_raise themeTable [] (.ok ["a".data]) "a".data "a".data
    (fun _ => ⟨.ok none, fun _ => .ok none⟩) 3 "p".data 5 "s".data none 0
    (.ok ()) (.ok ()) (.ok "h".data) (fun _ => .ok []) "u".data (.ok none)
    (fun _ => .ok none) rfl rfl

/-- Helper for C4: first-seen deduplication only returns elements of the
input list. -/
theorem mem_firstSeenAux {x : List Char} :
    ∀ (l seen : List (List Char)), x ∈ firstSeenAux seen l → x ∈ l := by
  intro l
  induction l with
  | nil => intro seen h; simp [firstSeenAux] at h
  | cons a t ih =>
      intro seen h
      simp only [firstSeenAux] at h
      split at h
      · exact List.mem_cons_of_mem a (ih seen h)
      · rcases List.mem_cons.mp h with rfl | h2
        · exact List.mem_cons_self x t
        · exact List.mem_cons_of_mem a (ih (a :: seen) h2)

/-- Helper for C4: a counter item is a key of the counted list together
with its count. -/
theorem mem_counterItems {e : List Char × Nat} {l : List (List Char)}
    (h : e ∈ counterItems l) : e.1 ∈ l ∧ e.2 = l.count e.1 := by
  rcases List.mem_map.mp h with ⟨w, hw, rfl⟩
  exact ⟨mem_firstSeenAux l [] (by simpa [firstSeen] using hw), rfl⟩

/-- Helper for C4: bucketed items come from the item list and have count at
most the bucket bound. -/
theorem mem_buckets {items : List (List Char × Nat)} {e : List Char × Nat} :
    ∀ c, e ∈ buckets items c → e ∈ items ∧ e.2 ≤ c := by
  intro c
  induction c with
  | zero =>
      intro h
      rw [buckets] at h
      have hm := List.mem_filter.mp h
      exact ⟨hm.1, by have : e.2 = 0 := by simpa using hm.2
                      omega⟩
  | succ n ih =>
      intro h
      rw [buckets] at h
      rcases List.mem_append.mp h with h1 | h2
      · have hm := List.mem_filter.mp h1
        have h3 : e.2 = n + 1 := by simpa using hm.2
        exact ⟨hm.1, by omega⟩
      · have h3 := ih h2
        exact ⟨h3.1, by omega⟩

/-- Helper for C4: the bucket concatenation is sorted by non-increasing
count. -/
theorem pairwise_buckets (items : List (List Char × Nat)) :
    ∀ c, (buckets items c).Pairwise (fun a b => b.2 ≤ a.2) := by
  intro c
  induction c with
  | zero =>
      apply List.pairwise_of_forall_mem_list
      intro a ha b hb
      have ha2 : a.2 = 0 := by simpa using (List.mem_filter.mp ha).2
      have hb2 : b.2 = 0 := by simpa using (List.mem_filter.mp hb).2
      omega
  | succ n ih =>
      rw [buckets, List.pairwise_append]
      refine ⟨List.pairwise_of_forall_mem_list ?_, ih, ?_⟩
      · intro a ha b hb
        have ha2 : a.2 = n + 1 := by simpa using (List.mem_filter.mp ha).2
        have hb2 : b.2 = n + 1 := by simpa using (List.mem_filter.mp hb).2
        omega
      · intro a ha b hb
        have ha2 : a.2 = n + 1 := by simpa using (List.mem_filter.mp ha).2
        have hb2 := (mem_buckets n hb).2
        omega

/-- Helper for C4: within one count value, the bucket concatenation keeps
the original item order — its count-`d` entries form a sublist of the
item list. -/
theorem buckets_filter_sublist (items : List (List Char × Nat)) (d : Nat) :
    ∀ c, List.Sublist ((buckets items c).filter (fun p => p.2 = d)) items := by
  intro c
  induction c with
  | zero =>
      rw [buckets]
      exact (List.filter_sublist _).trans (List.filter_sublist _)
  | succ n ih =>
      rw [buckets, List.filter_append]
      by_cases hd : d = n + 1
      · have h2 : (buckets items n).filter (fun p => p.2 = d) = [] := by
          rw [List.filter_eq_nil_iff]
          intro a ha
          have h3 := (mem_buckets n ha).2
          simp only [decide_eq_true_eq]
          omega
        rw [h2, List.append_nil]
        exact (List.filter_sublist _).trans (List.filter_sublist _)
      · have h1 : (items.filter (fun p => p.2 = n + 1)).filter
            (fun p => p.2 = d) = [] := by
          rw [List.filter_eq_nil_iff]
          intro a ha
          have h3 : a.2 = n + 1 := by simpa using (List.mem_filter.mp ha).2
          simp only [decide_eq_true_eq]
          omega
        rw [h1, List.nil_append]
        exact ih

/-- C4: on a non-empty text with successful tokenization, `analyze_text`
returns `top_words` with at most 20 entries, each frequency at least 1, no
key a stopword or non-alphanumeric token, ordered by non-increasing
frequency, and — for every frequency value — keeping the first-seen
(counter insertion) order among equal frequencies. -/
theorem top_words_post (table : List (List Char × List (List Char)))
    (stops : List (List Char)) (words : List (List Char)) (text : List Char)
    (hne : text ≠ []) :
    ∃ p, analyzeText table stops (.ok words) text = .ok (.result p) ∧
      p.topWords.length ≤ 20 ∧
      (∀ e ∈ p.topWords, 1 ≤ e.2 ∧ pyIsAlnum e.1 = true ∧
        stops.contains e.1 = false) ∧
      p.topWords.Pairwise (fun a b => b.2 ≤ a.2) ∧
      (∀ c, List.Sublist (p.topWords.filter (fun e => e.2 = c))
        (counterItems (filteredWords stops words))) := by
  refine ⟨analyzePayload table stops words text, ?_, ?_, ?_, ?_, ?_⟩
  · simp only [analyzeText, if_neg hne]
  · show (mostCommon 20 (counterItems (filteredWords stops words))).length ≤ 20
    exact List.length_take_le _ _
  · show ∀ e ∈ mostCommon 20 (counterItems (filteredWords stops words)),
      1 ≤ e.2 ∧ pyIsAlnum e.1 = true ∧ stops.contains e.1 = false
    intro e he
    have he2 := List.mem_of_mem_take he
    have he3 := (mem_buckets _ he2).1
    have he4 := mem_counterItems he3
    have he5 : e.1 ∈ filteredWords stops words := he4.1
    have he6 := List.mem_filter.mp he5
    have hcond := he6.2
    rw [Bool.and_eq_true] at hcond
    refine ⟨?_, hcond.1, ?_⟩
    · rw [he4.2]
      have hnz : (filteredWords stops words).count e.1 ≠ 0 := by
        rw [Ne, List.count_eq_zero]
        exact fun hcontra => hcontra he5
      omega
    · simpa using hcond.2
  · show (mostCommon 20 (counterItems (filteredWords stops words))).Pairwise
      (fun a b => b.2 ≤ a.2)
    exact List.Pairwise.sublist (List.take_sublist _ _) (pairwise_buckets _ _)
  · intro c
    show List.Sublist ((mostCommon 20
      (counterItems (filteredWords stops words))).filter (fun e => e.2 = c)) _
    exact (List.Sublist.filter _ (List.take_sublist _ _)).trans
      (buckets_filter_sublist _ c _)

/-- Witness for C4: a concrete run with a stopword and repeated tokens. -/
theorem top_words_post_witness :
    ∃ p, analyzeText themeTable ["the".data]
        (.ok ["a".data, "b".data, "a".data, "the".data, "c".data,
              "b".data, "a".data]) "a b a the c b a".data = .ok (.result p) ∧
      p.topWords.length ≤ 20 ∧
      (∀ e ∈ p.topWords, 1 ≤ e.2 ∧ pyIsAlnum e.1 = true ∧
        (["the".data] : List (List Char)).contains e.1 = false) ∧
      p.topWords.Pairwise (fun a b => b.2 ≤ a.2) ∧
      (∀ c, List.Sublist (p.topWords.filter (fun e => e.2 = c))
        (counterItems (filteredWords ["the".data]
          ["a".data, "b".data, "a".data, "the".data, "c".data,
           "b".data, "a".data]))) :=
  top_words_post themeTable ["the".data]
    ["a".data, "b".data, "a".data, "the".data, "c".data, "b".data, "a".data]
    "a b a the c b a".data (by decide)

end VibeCrawler
